import Mathlib

/-!
# Landing-page builder: verification of the state/history engine and the
  validation / conditional-logic evaluator

Shallow embedding of the core of the LandCraft landing-page builder:

* `Validation` (validation utilities): `evaluateCondition`, `isEmpty`,
  `validateField`, `validateForm` and the built-in format patterns.
* `AppState` (state management): the document model, `setState` /
  `saveToHistory` / `undo` / `redo`, the mutation commands
  (`deleteStep`, `deleteField`, `selectElement`) and `importJSON`.

JavaScript runtime values are modelled by the inductive type `JsVal`
(undefined, null, booleans, numbers, strings, arrays, objects).  Numbers are
modelled as integers: no claim under verification depends on fractional
values, and every numeric literal appearing in the source in a position the
claims observe is an integer.  Platform services that are not part of the
repository are modelled explicitly at the boundary where the code calls
them: `JSON.parse` as an `Option JsVal` argument (`none` = parse exception),
user-supplied regular expressions (`new RegExp(p).test(v)`) as a function
argument of type `String → String → Option Bool` (`none` = the pattern
failed to compile), and `Helpers.generateId` (which mixes in `Date.now()`
and `Math.random()`) as a deterministic fresh-name scheme, since no claim
observes the concrete spelling of generated ids.  `Helpers.deepClone` is a
pure structural clone, hence the identity on immutable values and omitted.
DOM/listener/localStorage side effects (`notifyListeners`, `persistState`)
are outside the pure state transition and omitted.
-/

/-- A JavaScript runtime value (integer-valued numbers only). -/
inductive JsVal where
  | undefined
  | jsNull
  | b (bb : Bool)
  | n (i : Int)
  | s (str : String)
  | arr (xs : List JsVal)
  | obj (kvs : List (String × JsVal))
deriving Repr

/-- JavaScript falsiness: `undefined`, `null`, `false`, `0` and `""` are
falsy, everything else truthy.  (`NaN` is not representable in the integer
number model.) -/
def falsy : JsVal → Bool
  | .undefined => true
  | .jsNull => true
  | .b false => true
  | .n 0 => true
  | .s "" => true
  | _ => false

def truthy (v : JsVal) : Bool := !falsy v

/-- The JavaScript `a || d` operator: `d` when `a` is falsy, else `a`. -/
def jsOr (a d : JsVal) : JsVal := if falsy a then d else a

mutual

/-- The JavaScript `String(v)` coercion.  Arrays stringify as their elements
joined by commas with null/undefined entries blanked; plain objects as
`"[object Object]"`. -/
def jsString : JsVal → String
  | .undefined => "undefined"
  | .jsNull => "null"
  | .b true => "true"
  | .b false => "false"
  | .n i => toString i
  | .s str => str
  | .arr xs => String.intercalate "," (jsStringElems xs)
  | .obj _ => "[object Object]"

/-- Element-wise stringification used by `Array.prototype.join`. -/
def jsStringElems : List JsVal → List String
  | [] => []
  | .jsNull :: rest => "" :: jsStringElems rest
  | .undefined :: rest => "" :: jsStringElems rest
  | v :: rest => jsString v :: jsStringElems rest

end

/-- The JavaScript `String.prototype.trim`: strip leading and trailing
whitespace (implemented on the character list so that it evaluates by
computation). -/
def trimJS (s : String) : String :=
  String.mk (((s.toList.dropWhile Char.isWhitespace).reverse.dropWhile
    Char.isWhitespace).reverse)

/-- JavaScript strict equality `===` on the value model.  Arrays and objects
compare by reference in JavaScript; in this embedding the two operands of
every `===` in the source come from distinct provenances (a stored form
value vs. a configuration value), so composite values are never identical
references and the comparison is `false`. -/
def strictEq : JsVal → JsVal → Bool
  | .undefined, .undefined => true
  | .jsNull, .jsNull => true
  | .b x, .b y => x == y
  | .n x, .n y => x == y
  | .s x, .s y => x == y
  | _, _ => false

/-- Model of `Validation.isEmpty`: null/undefined are empty, a string is empty iff it
trims to `""`, an array iff it has no elements, an object iff it has no
keys; any other value (numbers, booleans) is non-empty. -/
def isEmpty : JsVal → Bool
  | .jsNull => true
  | .undefined => true
  | .s str => trimJS str == ""
  | .arr xs => xs.isEmpty
  | .obj kvs => kvs.isEmpty
  | _ => false

/-- Parse a leading run of decimal digits, ignoring any trailing characters
(the way `parseFloat` consumes a numeric prefix); `none` when no digit
leads. -/
def parseLeadingDigits (cs : List Char) : Option Int :=
  let ds := cs.takeWhile Char.isDigit
  if ds.isEmpty then none
  else some (ds.foldl (fun acc c => acc * 10 + (Int.ofNat (c.toNat - '0'.toNat))) 0)

/-- The JavaScript `parseFloat` coercion restricted to the integer number
model: numbers pass through, any other value is stringified, leading
whitespace and an optional sign are consumed, and a leading digit run is
parsed; `none` plays the role of `NaN`.  (Fractional parts and exponents
are outside the integer model; no verified claim exercises them.) -/
def parseFloatJS (v : JsVal) : Option Int :=
  match v with
  | .n i => some i
  | _ =>
    match (trimJS (jsString v)).toList with
    | '-' :: rest => (parseLeadingDigits rest).map (fun x => -x)
    | '+' :: rest => parseLeadingDigits rest
    | cs => parseLeadingDigits cs

/-- Lookup `values[key]` on a form-value mapping: `undefined` when the key is
absent. -/
def lookupVal (values : List (String × JsVal)) (k : String) : JsVal :=
  match values.lookup k with
  | some v => v
  | none => .undefined

/-- A `conditionalLogic` record: `{enabled, field, operator, value}`.  An
absent or empty trigger-field reference is the empty string (both are falsy
under the source's `!field` test). -/
structure Condition where
  enabled : Bool := false
  field : String := ""
  operator : String := ""
  value : JsVal := .undefined
deriving Repr

/-- Model of `Validation.evaluateCondition(condition, values)`.  The `switch` on the
operator is rendered as an if-chain; the `default` arm returns `true`
(fail-open). -/
def evaluateCondition (condition : Option Condition) (values : List (String × JsVal)) : Bool :=
  match condition with
  | none => true
  | some c =>
    if !c.enabled then true
    else if c.field = "" then true
    else
      let fieldValue := lookupVal values c.field
      if c.operator = "equals" then strictEq fieldValue c.value
      else if c.operator = "not_equals" then !strictEq fieldValue c.value
      else if c.operator = "contains" then
        decide ((jsString c.value).toList <:+: (jsString (jsOr fieldValue (.s ""))).toList)
      else if c.operator = "not_contains" then
        !decide ((jsString c.value).toList <:+: (jsString (jsOr fieldValue (.s ""))).toList)
      else if c.operator = "not_empty" then !isEmpty fieldValue
      else if c.operator = "empty" then isEmpty fieldValue
      else if c.operator = "greater_than" then
        match parseFloatJS fieldValue, parseFloatJS c.value with
        | some x, some y => x > y
        | _, _ => false
      else if c.operator = "less_than" then
        match parseFloatJS fieldValue, parseFloatJS c.value with
        | some x, some y => x < y
        | _, _ => false
      else if c.operator = "starts_with" then
        (jsString (jsOr fieldValue (.s ""))).startsWith (jsString c.value)
      else if c.operator = "ends_with" then
        (jsString (jsOr fieldValue (.s ""))).endsWith (jsString c.value)
      else true

/-- The ten operators the `switch` recognizes. -/
def knownOperators : List String :=
  ["equals", "not_equals", "contains", "not_contains", "not_empty", "empty",
   "greater_than", "less_than", "starts_with", "ends_with"]

/-! ## Built-in validation patterns (`Validation.patterns`)

Each fixed regular expression from the source is rendered as a decidable
matcher with the same anchored semantics; character classes follow the
regex literally, and where a class may be consumed at several split points
(email/url) the matcher tests every split, which is exactly the language
the backtracking regex accepts. -/

/-- Character class `[a-zA-Z0-9._%+-]` (email local part). -/
def emailLocalChar (c : Char) : Bool :=
  c.isAlphanum || c == '.' || c == '_' || c == '%' || c == '+' || c == '-'

/-- Character class `[a-zA-Z0-9.-]` (email domain part). -/
def emailDomainChar (c : Char) : Bool :=
  c.isAlphanum || c == '.' || c == '-'

/-- Domain tail of the email pattern: `[a-zA-Z0-9.-]+\.[a-zA-Z]{2,}`. -/
def emailDomainOk (d : List Char) : Bool :=
  (List.range d.length).any fun i =>
    d.get? i == some '.' && decide (0 < i) && (d.take i).all emailDomainChar &&
      decide (2 ≤ (d.drop (i + 1)).length) && (d.drop (i + 1)).all Char.isAlpha

/-- Matcher for `patterns.email = /^[a-zA-Z0-9._%+-]+@[a-zA-Z0-9.-]+\.[a-zA-Z]{2,}$/`.
Neither class contains `@`, so the string must contain exactly one `@`. -/
def emailPattern (str : String) : Bool :=
  match str.splitOn "@" with
  | [lp, dp] => decide (lp ≠ "") && lp.toList.all emailLocalChar && emailDomainOk dp.toList
  | _ => false

/-- Matcher for `patterns.mobile = /^[0-9]{10}$/`. -/
def mobilePattern (str : String) : Bool :=
  str.length == 10 && str.toList.all Char.isDigit

/-- Model of `value.replace(/\D/g, '')`: strip every non-digit character. -/
def stripNonDigits (str : String) : String :=
  String.mk (str.toList.filter Char.isDigit)

/-- Character class `[\da-z.-]` (url host). -/
def urlHostChar (c : Char) : Bool :=
  c.isDigit || (decide ('a' ≤ c) && decide (c ≤ 'z')) || c == '.' || c == '-'

/-- Character class `[a-z.]` (url tld). -/
def urlTldChar (c : Char) : Bool :=
  (decide ('a' ≤ c) && decide (c ≤ 'z')) || c == '.'

/-- Character class `[/\w .-]` (url path; `\w = [A-Za-z0-9_]`). -/
def urlPathChar (c : Char) : Bool :=
  c == '/' || c.isAlphanum || c == '_' || c == ' ' || c == '.' || c == '-'

/-- Matcher for `patterns.url = /^(https?:\/\/)?([\da-z.-]+)\.([a-z.]{2,6})([/\w .-]*)*\/?$/`.
The iterated group `([/\w .-]*)*` denotes the same language as
`[/\w .-]*`, and the trailing `\/?` is subsumed by that class; the host
class contains neither `:` nor `/`, so a scheme prefix can only be matched
by the scheme group. -/
def urlPattern (str : String) : Bool :=
  let t := if str.startsWith "https://" then (str.drop 8)
           else if str.startsWith "http://" then (str.drop 7)
           else str
  let cs := t.toList
  (List.range cs.length).any fun i =>
    cs.get? i == some '.' && decide (0 < i) && (cs.take i).all urlHostChar &&
      ((List.range 5).any fun k =>
        let tld := (cs.drop (i + 1)).take (k + 2)
        tld.length == k + 2 && tld.all urlTldChar &&
          ((cs.drop (i + 1)).drop (k + 2)).all urlPathChar)

/-- Character test at an index, `false` when out of range. -/
def testAt (cs : List Char) (i : Nat) (p : Char → Bool) : Bool :=
  match cs.get? i with
  | some c => p c
  | none => false

def isUpperAZ (c : Char) : Bool := decide ('A' ≤ c) && decide (c ≤ 'Z')

/-- Matcher for `patterns.gst = /^[0-9]{2}[A-Z]{5}[0-9]{4}[A-Z]{1}[1-9A-Z]{1}Z[0-9A-Z]{1}$/`. -/
def gstPattern (str : String) : Bool :=
  let cs := str.toList
  cs.length == 15 &&
    ((List.range 2).all fun i => testAt cs i Char.isDigit) &&
    ((List.range 5).all fun i => testAt cs (2 + i) isUpperAZ) &&
    ((List.range 4).all fun i => testAt cs (7 + i) Char.isDigit) &&
    testAt cs 11 isUpperAZ &&
    testAt cs 12 (fun c => (decide ('1' ≤ c) && decide (c ≤ '9')) || isUpperAZ c) &&
    testAt cs 13 (fun c => c == 'Z') &&
    testAt cs 14 (fun c => c.isDigit || isUpperAZ c)

/-- Matcher for `patterns.pan = /^[A-Z]{5}[0-9]{4}[A-Z]{1}$/`. -/
def panPattern (str : String) : Bool :=
  let cs := str.toList
  cs.length == 10 &&
    ((List.range 5).all fun i => testAt cs i isUpperAZ) &&
    ((List.range 4).all fun i => testAt cs (5 + i) Char.isDigit) &&
    testAt cs 9 isUpperAZ

/-- Matcher for `patterns.pincode = /^[1-9][0-9]{5}$/`. -/
def pincodePattern (str : String) : Bool :=
  let cs := str.toList
  cs.length == 6 && testAt cs 0 (fun c => decide ('1' ≤ c) && decide (c ≤ '9')) &&
    (cs.drop 1).all Char.isDigit

/-- Matcher for `patterns.alphanumeric = /^[a-zA-Z0-9]+$/`. -/
def alphanumericPattern (str : String) : Bool :=
  decide (str ≠ "") && str.toList.all Char.isAlphanum

/-- Matcher for `patterns.alpha = /^[a-zA-Z]+$/`. -/
def alphaPattern (str : String) : Bool :=
  decide (str ≠ "") && str.toList.all Char.isAlpha

/-- Matcher for `patterns.numeric = /^[0-9]+$/`. -/
def numericPattern (str : String) : Bool :=
  decide (str ≠ "") && str.toList.all Char.isDigit

/-! ## Built-in error messages (`Validation.messages`) -/

namespace Messages

def required : String := "This field is required"
def email : String := "Please enter a valid email address"
def mobile : String := "Please enter a valid 10-digit mobile number"
def url : String := "Please enter a valid URL"
def minLength : String := "Minimum {min} characters required"
def maxLength : String := "Maximum {max} characters allowed"
def minMsg : String := "Value must be at least {min}"
def maxMsg : String := "Value must not exceed {max}"
def patternMsg : String := "Please enter a valid format"
def alphanumeric : String := "Only letters and numbers are allowed"
def alpha : String := "Only letters are allowed"
def numeric : String := "Only numbers are allowed"
def gst : String := "Please enter a valid GST number"
def pan : String := "Please enter a valid PAN number"
def pincode : String := "Please enter a valid 6-digit PIN code"

end Messages

/-! ## Field validator (`Validation.validateField` / `Validation.validateForm`)

The rule object handed to `validateField` is a loosely-typed record; its
optional keys are modelled as `Option` fields and its boolean flags as
`Bool`.  The source guard `x !== undefined && x !== null && x !== ''` on
the numeric bounds corresponds to the `Option` being `some`.  The sequence
of early-return checks after the empty-value check is rendered as a chain
of `Option String`-valued checks combined front-to-back: the first check
that produces a message decides the result, exactly like the source's
first-failure-returns short-circuit. -/

structure Rules where
  conditionalLogic : Option Condition := none
  required : Bool := false
  type : Option String := none
  email : Bool := false
  mobile : Bool := false
  url : Bool := false
  minLength : Option Int := none
  maxLength : Option Int := none
  min : Option Int := none
  max : Option Int := none
  pattern : Option String := none
  errorMessage : Option String := none
  gst : Bool := false
  pan : Bool := false
  pincode : Bool := false
  alphanumeric : Bool := false
  alpha : Bool := false
  numeric : Bool := false
  date : Bool := false
deriving Repr

/-- The `{valid, error}` result of `validateField`. -/
structure VResult where
  valid : Bool
  error : Option String
deriving Repr, DecidableEq

/-- Fallback `rules.errorMessage || builtinDefault`: an absent or empty custom
message falls back to the built-in one (`""` is falsy). -/
def jsOrStr (o : Option String) (d : String) : String :=
  match o with
  | some m => if m = "" then d else m
  | none => d

/-- A compiled user regular expression: `rxTest p v` models
`new RegExp(p).test(v)`, with `none` standing for the `SyntaxError` the
constructor throws on a malformed pattern (caught and logged by the
source, rule passes). -/
abbrev RegexEngine := String → String → Option Bool

def checkEmail (value : JsVal) (rules : Rules) : Option String :=
  if (rules.type == some "email" || rules.email) && !emailPattern (jsString value) then
    some Messages.email
  else none

/-- Mobile check: strip non-digits from the value, then require
`/^[0-9]{10}$/`.  (The source calls `value.replace` directly: every value
reaching this check in the application is a string; the `String(·)`
coercion makes the model total.) -/
def checkMobile (value : JsVal) (rules : Rules) : Option String :=
  if (rules.type == some "mobile" || rules.mobile)
      && !mobilePattern (stripNonDigits (jsString value)) then
    some Messages.mobile
  else none

def checkUrl (value : JsVal) (rules : Rules) : Option String :=
  if (rules.type == some "url" || rules.url) && !urlPattern (jsString value) then
    some Messages.url
  else none

/-- Check `String(value).length < parseInt(rules.minLength)`.  (JS `.length`
counts UTF-16 units, `String.length` counts code points; they agree on the
material in scope.) -/
def checkMinLength (value : JsVal) (rules : Rules) : Option String :=
  match rules.minLength with
  | some m =>
    if (Int.ofNat (jsString value).length) < m then
      some ((Messages.minLength).replace "{min}" (toString m))
    else none
  | none => none

def checkMaxLength (value : JsVal) (rules : Rules) : Option String :=
  match rules.maxLength with
  | some m =>
    if m < (Int.ofNat (jsString value).length) then
      some ((Messages.maxLength).replace "{max}" (toString m))
    else none
  | none => none

/-- Check `parseFloat(value) < parseFloat(rules.min)`; a `NaN` (here `none`)
comparison is false, so a non-numeric value passes. -/
def checkMin (value : JsVal) (rules : Rules) : Option String :=
  match rules.min with
  | some m =>
    match parseFloatJS value with
    | some x => if x < m then some ((Messages.minMsg).replace "{min}" (toString m)) else none
    | none => none
  | none => none

def checkMax (value : JsVal) (rules : Rules) : Option String :=
  match rules.max with
  | some m =>
    match parseFloatJS value with
    | some x => if m < x then some ((Messages.maxMsg).replace "{max}" (toString m)) else none
    | none => none
  | none => none

/-- Custom pattern: `if (rules.pattern)` is a truthiness test (`""` falsy);
a compilable pattern that rejects fails with the custom-or-default message;
a malformed pattern (`rx` returns `none`) is logged and passes. -/
def checkCustom (rx : RegexEngine) (value : JsVal) (rules : Rules) : Option String :=
  match rules.pattern with
  | some p =>
    if p = "" then none
    else
      match rx p (jsString value) with
      | some true => none
      | some false => some (jsOrStr rules.errorMessage Messages.patternMsg)
      | none => none
  | none => none

/-- GST/PAN tests run on `value.toUpperCase()`. -/
def checkGst (value : JsVal) (rules : Rules) : Option String :=
  if rules.gst && !gstPattern (jsString value).toUpper then some Messages.gst else none

def checkPan (value : JsVal) (rules : Rules) : Option String :=
  if rules.pan && !panPattern (jsString value).toUpper then some Messages.pan else none

def checkPincode (value : JsVal) (rules : Rules) : Option String :=
  if rules.pincode && !pincodePattern (jsString value) then some Messages.pincode else none

def checkAlphanumeric (value : JsVal) (rules : Rules) : Option String :=
  if rules.alphanumeric && !alphanumericPattern (jsString value) then
    some Messages.alphanumeric
  else none

def checkAlpha (value : JsVal) (rules : Rules) : Option String :=
  if rules.alpha && !alphaPattern (jsString value) then some Messages.alpha else none

def checkNumeric (value : JsVal) (rules : Rules) : Option String :=
  if rules.numeric && !numericPattern (jsString value) then some Messages.numeric else none

/-- The format checks that follow the empty-value check, in source order;
the first failure wins. -/
def formatFailure (rx : RegexEngine) (value : JsVal) (rules : Rules) : Option String :=
  (checkEmail value rules).orElse fun _ =>
  (checkMobile value rules).orElse fun _ =>
  (checkUrl value rules).orElse fun _ =>
  (checkMinLength value rules).orElse fun _ =>
  (checkMaxLength value rules).orElse fun _ =>
  (checkMin value rules).orElse fun _ =>
  (checkMax value rules).orElse fun _ =>
  (checkCustom rx value rules).orElse fun _ =>
  (checkGst value rules).orElse fun _ =>
  (checkPan value rules).orElse fun _ =>
  (checkPincode value rules).orElse fun _ =>
  (checkAlphanumeric value rules).orElse fun _ =>
  (checkAlpha value rules).orElse fun _ =>
  checkNumeric value rules

/-- Model of `Validation.validateField(value, rules, allValues)`. -/
def validateField (rx : RegexEngine) (value : JsVal) (rules : Rules)
    (allValues : List (String × JsVal)) : VResult :=
  if (match rules.conditionalLogic with | some c => c.enabled | none => false)
      && !evaluateCondition rules.conditionalLogic allValues then
    { valid := true, error := none }
  else if rules.required && isEmpty value then
    { valid := false, error := some (jsOrStr rules.errorMessage Messages.required) }
  else if isEmpty value then
    { valid := true, error := none }
  else
    match formatFailure rx value rules with
    | some e => { valid := false, error := some e }
    | none => { valid := true, error := none }

/-- The `validation` sub-record stored on a field.  The application's
validation records carry only these keys (optional numeric bounds, custom
pattern and message, and the boolean format flags seeded by
`getDefaultRules`), so the `...field.validation` spread in `validateForm`
contributes exactly them. -/
structure FieldValidation where
  minLength : Option Int := none
  maxLength : Option Int := none
  min : Option Int := none
  max : Option Int := none
  pattern : Option String := none
  errorMessage : Option String := none
  email : Bool := false
  mobile : Bool := false
  url : Bool := false
  gst : Bool := false
  pan : Bool := false
  pincode : Bool := false
  alphanumeric : Bool := false
  alpha : Bool := false
  numeric : Bool := false
  date : Bool := false
deriving Repr

/-- A form field of the document model (the keys the claims observe;
`options` is kept as a raw value the way the source stores it).  Named
`FormField` here because `Field` collides with Mathlib. -/
structure FormField where
  id : String
  type : String := "text"
  label : String := ""
  placeholder : String := ""
  required : Bool := false
  options : JsVal := .arr []
  validation : FieldValidation := {}
  conditionalLogic : Option Condition := none
deriving Repr

/-- The rule object `validateForm` builds for one field:
`{type, required, minLength, …, conditionalLogic, ...field.validation}`.
The explicit keys and the spread coincide on the validation keys, and the
spread adds the format flags. -/
def fieldRules (f : FormField) : Rules :=
  { type := some f.type
    required := f.required
    conditionalLogic := f.conditionalLogic
    minLength := f.validation.minLength
    maxLength := f.validation.maxLength
    min := f.validation.min
    max := f.validation.max
    pattern := f.validation.pattern
    errorMessage := f.validation.errorMessage
    email := f.validation.email
    mobile := f.validation.mobile
    url := f.validation.url
    gst := f.validation.gst
    pan := f.validation.pan
    pincode := f.validation.pincode
    alphanumeric := f.validation.alphanumeric
    alpha := f.validation.alpha
    numeric := f.validation.numeric
    date := f.validation.date }

/-- The `{valid, errors}` result of `validateForm`; `errors` is the
fieldId-to-message mapping, in insertion order. -/
structure FormResult where
  valid : Bool
  errors : List (String × String)
deriving Repr

/-- Loop body of `validateForm`: validate one field and fold its outcome
into the aggregate. -/
def validateFormStep (rx : RegexEngine) (values : List (String × JsVal))
    (acc : FormResult) (f : FormField) : FormResult :=
  let r := validateField rx (lookupVal values f.id) (fieldRules f) values
  if r.valid then acc
  else { valid := false, errors := acc.errors ++ [(f.id, r.error.getD "")] }

/-- Model of `Validation.validateForm(values, fields)`: validate every field in
order against the value mapping, aggregating overall validity and the
error map. -/
def validateForm (rx : RegexEngine) (values : List (String × JsVal))
    (fields : List FormField) : FormResult :=
  fields.foldl (validateFormStep rx values) { valid := true, errors := [] }

/-! ## Document model and state container (`AppState`)

The structure defaults encode the initial `AppState.state` literal from the
source. -/

structure HeaderImage where
  url : Option String := none
  height : Int := 300
deriving Repr

structure HeaderTitle where
  text : String := "Welcome to Our Page"
  fontFamily : String := "Plus Jakarta Sans"
  fontSize : Int := 32
  color : String := "#1e293b"
  bold : Bool := false
  italic : Bool := false
  underline : Bool := false
  align : String := "center"
deriving Repr

structure HeaderDescription where
  html : String := "<p>Fill out the form below to get started.</p>"
  text : String := "Fill out the form below to get started."
  fontSize : Int := 16
  color : String := "#64748b"
deriving Repr

structure Header where
  image : HeaderImage := {}
  title : HeaderTitle := {}
  description : HeaderDescription := {}
deriving Repr

structure Step where
  id : String
  name : String := ""
  fields : List FormField := []
deriving Repr

structure Settings where
  webhookUrl : String := ""
  submitButtonText : String := "Submit"
  successMessage : String := "Thank you! Your response has been recorded."
  showProgressBar : Bool := true
  theme : String := "light"
deriving Repr

/-- The project snapshot `AppState.state`.  `currentStep` is a list index
(the application only ever stores in-range non-negative indices, clamped by
`deleteStep` and guarded by `setCurrentStep`). -/
structure ProjState where
  projectName : String := "Untitled Project"
  currentStep : Nat := 0
  selectedElement : Option String := none
  currentView : String := "builder"
  header : Header := {}
  steps : List Step := [{ id := "step_0", name := "Welcome", fields := [] }]
  settings : Settings := {}
deriving Repr

/-- The initial state literal of the source. -/
def initialState : ProjState := {}

instance : Inhabited ProjState := ⟨initialState⟩

/-- The state container: current snapshot plus the undo history (a bounded
sequence of snapshots and a cursor, `historyIndex` starting at `-1`). -/
structure AppState where
  state : ProjState
  history : List ProjState := []
  historyIndex : Int := -1
deriving Repr

/-- Cap `AppState.maxHistorySize`. -/
def maxHistorySize : Nat := 50

/-- Model of `AppState.saveToHistory()`: drop any snapshots after the cursor, append
a deep copy of the current state, and either shift out the oldest entry
(when the sequence would exceed the cap — the cursor is not advanced) or
advance the cursor. -/
def saveToHistory (app : AppState) : AppState :=
  let h :=
    if app.historyIndex < (app.history.length : Int) - 1 then
      app.history.take (app.historyIndex + 1).toNat
    else app.history
  let h2 := h ++ [app.state]
  if maxHistorySize < h2.length then
    { app with history := h2.drop 1 }
  else
    { app with history := h2, historyIndex := app.historyIndex + 1 }

/-- Model of `AppState.setState(updates, saveHistory)`: the commands below compute
the merged snapshot themselves, so the merged result is passed here
directly. -/
def setState (app : AppState) (newState : ProjState) (saveHistory : Bool) : AppState :=
  let app' := { app with state := newState }
  if saveHistory then saveToHistory app' else app'

/-- Model of `AppState.undo()`: move the cursor back and restore that snapshot;
returns whether an undo happened. -/
def undo (app : AppState) : Bool × AppState :=
  if 0 < app.historyIndex then
    let i := app.historyIndex - 1
    (true, { app with historyIndex := i, state := (app.history.get? i.toNat).getD default })
  else (false, app)

/-- Model of `AppState.redo()`. -/
def redo (app : AppState) : Bool × AppState :=
  if app.historyIndex < (app.history.length : Int) - 1 then
    let i := app.historyIndex + 1
    (true, { app with historyIndex := i, state := (app.history.get? i.toNat).getD default })
  else (false, app)

/-- Model of `AppState.canUndo()`. -/
def canUndo (app : AppState) : Bool := 0 < app.historyIndex

/-- Model of `AppState.canRedo()`. -/
def canRedo (app : AppState) : Bool := app.historyIndex < (app.history.length : Int) - 1

/-- Model of `AppState.selectElement(elementId)`: selection does not create a
history checkpoint (`saveHistory = false`). -/
def selectElement (app : AppState) (elementId : Option String) : AppState :=
  setState app { app.state with selectedElement := elementId } false

/-- Model of `steps.filter((_, i) => i !== stepIndex)`: remove the entry at one
index. -/
def removeAtIdx (l : List Step) (idx : Nat) : List Step :=
  (l.enum.filter (fun p => decide (p.1 ≠ idx))).map Prod.snd

/-- Model of `AppState.deleteStep(stepIndex)`: refuse to delete the last remaining
step; afterwards clamp `currentStep` into range. -/
def deleteStep (app : AppState) (stepIndex : Nat) : AppState :=
  if app.state.steps.length ≤ 1 then app
  else
    let steps := removeAtIdx app.state.steps stepIndex
    let currentStep :=
      if steps.length ≤ app.state.currentStep then steps.length - 1
      else app.state.currentStep
    setState app { app.state with steps := steps, currentStep := currentStep } true

/-- Remove the first occurrence of the field with the given id, walking the
steps in order (`findIndex` + `splice(i, 1)`); `none` when no step contains
it (in which case `deleteField` performs no `setState`). -/
def removeFieldOnce : List Step → String → Option (List Step)
  | [], _ => none
  | st :: rest, fid =>
    match st.fields.findIdx? (fun f => f.id == fid) with
    | some i => some ({ st with fields := st.fields.eraseIdx i } :: rest)
    | none => (removeFieldOnce rest fid).map (fun r => st :: r)

/-- Model of `AppState.deleteField(fieldId)`: remove the field wherever found and
clear the selection; untouched when the id does not occur. -/
def deleteField (app : AppState) (fieldId : String) : AppState :=
  match removeFieldOnce app.state.steps fieldId with
  | some steps =>
    setState app { app.state with steps := steps, selectedElement := none } true
  | none => app

/-! ## Import (`AppState.importJSON`)

Property access is modelled per JavaScript: reading a property of `null` or
`undefined` throws a `TypeError` (the `Except Unit` error, caught by the
source's `try/catch`); reading an unknown property of any other value
yields `undefined`.  `.map` on a truthy non-array likewise throws.  Where
the model's typed state requires a `String`/`Int` and the document supplied
some other raw value, the JavaScript string/number coercion is applied; no
claim observes those positions. -/

/-- Property access on a value already known not to be nullish. -/
def jprop (v : JsVal) (k : String) : JsVal :=
  match v with
  | .obj kvs => match kvs.lookup k with | some x => x | none => .undefined
  | _ => .undefined

/-- Property access that throws on `null`/`undefined` (plain `a.b`). -/
def jpropE (v : JsVal) (k : String) : Except Unit JsVal :=
  match v with
  | .undefined => .error ()
  | .jsNull => .error ()
  | _ => .ok (jprop v k)

/-- Optional chaining `a?.b`: `undefined` on a nullish base. -/
def jchain (v : JsVal) (k : String) : JsVal :=
  match v with
  | .undefined => .undefined
  | .jsNull => .undefined
  | _ => jprop v k

def asStr (v : JsVal) : String := jsString v

/-- Integer stored in a numeric state slot, with the given fallback for
raw non-number documents. -/
def jvalToIntD (v : JsVal) (d : Int) : Int :=
  match v with
  | .n i => i
  | _ => d

/-- Nullish becomes `none`, anything else is kept (stringified). -/
def jvalToOptStr (v : JsVal) : Option String :=
  match v with
  | .undefined => none
  | .jsNull => none
  | w => some (jsString w)

/-- Imported numeric validation bound.  The validator's guard skips
`undefined`/`null`/`''`, and a non-numeric string later becomes a `NaN`
comparison that never fails, which coincides with `none` here. -/
def jvalToOptInt (v : JsVal) : Option Int :=
  match v with
  | .n i => some i
  | .s str => if str = "" then none else parseLeadingDigits str.toList
  | _ => none

/-- Trigger-field reference as stored on a condition: falsy documents give
`""` (the evaluator's `!field` test treats them alike). -/
def condStr (v : JsVal) : String :=
  if falsy v then "" else jsString v

/-- One imported field (`si`/`fi` are the step/field positions, used for
the deterministic stand-in for `Helpers.generateId('field')`). -/
def importField (si fi : Nat) (fv : JsVal) : Except Unit FormField := do
  let idv ← jpropE fv "id"
  let valv := jprop fv "validation"
  let clv := jsOr (jprop fv "conditional_logic") (.obj [("enabled", .b false)])
  .ok {
    id := if truthy idv then asStr idv
          else "field_imp_" ++ toString si ++ "_" ++ toString fi
    type := asStr (jprop fv "type")
    label := asStr (jprop fv "label")
    placeholder := asStr (jsOr (jprop fv "placeholder") (.s ""))
    required := truthy (jprop fv "required")
    options := jsOr (jprop fv "options") (.arr [])
    validation := {
      minLength := jvalToOptInt (jchain valv "min_length")
      maxLength := jvalToOptInt (jchain valv "max_length")
      pattern := jvalToOptStr (jchain valv "pattern")
      errorMessage := jvalToOptStr (jchain valv "error_message") }
    conditionalLogic := some {
      enabled := truthy (jprop clv "enabled")
      field := condStr (jprop clv "field")
      operator := condStr (jprop clv "operator")
      value := jprop clv "value" } }

/-- Effectful map with a running index (the `(x, i) => …` callback of
`Array.prototype.map`, which stops at the first thrown error). -/
def mapWithIdxE (f : Nat → JsVal → Except Unit α) : Nat → List JsVal → Except Unit (List α)
  | _, [] => .ok []
  | i, x :: xs => do
    let y ← f i x
    let ys ← mapWithIdxE f (i + 1) xs
    .ok (y :: ys)

/-- One imported step. -/
def importStep (si : Nat) (sv : JsVal) : Except Unit Step := do
  let namev ← jpropE sv "step_name"
  let fieldsv := jsOr (jprop sv "fields") (.arr [])
  let fieldsArr ← match fieldsv with
    | .arr xs => Except.ok xs
    | _ => Except.error ()
  let fields ← mapWithIdxE (importField si) 0 fieldsArr
  .ok { id := "step_imp_" ++ toString si
        name := if truthy namev then asStr namev else "Step " ++ toString (si + 1)
        fields := fields }

/-- The imported steps: `(data.steps || []).map(importStep)` — `.map` on a
truthy non-array throws — followed by the at-least-one-step replacement
the source applies before committing. -/
def importSteps (data : JsVal) : Except Unit (List Step) :=
  match jsOr (jprop data "steps") (.arr []) with
  | .arr xs =>
    match mapWithIdxE importStep 0 xs with
    | .ok steps =>
      .ok (if steps.length == 0 then [{ id := "step_0", name := "Step 1", fields := [] }]
           else steps)
    | .error u => .error u
  | _ => .error ()

/-- Conversion of a parsed document into the new state (the body of the
source's `try` block up to the `setState`), over the previous state `st`
(whose header/settings supply fallbacks). -/
def importState (st : ProjState) (data : JsVal) : Except Unit ProjState := do
  let pnv ← jpropE data "project_name"
  let steps ← importSteps data
  let tv := jprop data "title"
  let dv := jprop data "description"
  let sv := jprop data "settings"
  Except.ok {
    projectName := asStr (jsOr pnv (.s "Imported Project"))
    currentStep := 0
    selectedElement := none
    currentView := st.currentView
    header := {
      image := {
        url := jvalToOptStr (jprop data "header_image")
        height := jvalToIntD (jsOr (jprop data "header_image_height") (.n 300)) 300 }
      title :=
        if truthy tv then {
          text := asStr (jsOr (jprop tv "text") (.s ""))
          fontFamily := asStr (jsOr (jprop tv "font_family") (.s "Plus Jakarta Sans"))
          fontSize := jvalToIntD (jsOr (jprop tv "font_size") (.n 32)) 32
          color := asStr (jsOr (jprop tv "color") (.s "#1e293b"))
          bold := truthy (jprop tv "bold")
          italic := truthy (jprop tv "italic")
          underline := truthy (jprop tv "underline")
          align := asStr (jsOr (jprop tv "align") (.s "center")) }
        else st.header.title
      description :=
        if truthy dv then {
          html := asStr (jsOr (jprop dv "html") (.s ""))
          text := asStr (jsOr (jprop dv "text") (.s ""))
          fontSize := jvalToIntD (jsOr (jprop dv "font_size") (.n 16)) 16
          color := asStr (jsOr (jprop dv "color") (.s "#64748b")) }
        else st.header.description }
    steps := steps
    settings := {
      webhookUrl := asStr (jsOr (jprop data "webhook_url") (.s ""))
      submitButtonText := asStr (jsOr (jchain sv "submit_button_text") (.s "Submit"))
      successMessage := asStr (jsOr (jchain sv "success_message") (.s "Thank you!"))
      showProgressBar := !strictEq (jchain sv "show_progress_bar") (.b false)
      theme := st.settings.theme } }

/-- Model of `AppState.importJSON(json)`: the argument is the outcome of
`JSON.parse` (`none` = parse exception).  Any exception inside the `try`
block is caught: the function returns `false` and the container is left
untouched.  On success the converted state is committed through
`setState` (with `currentStep` reset and the selection cleared, per the
final spread) and `true` is returned. -/
def importJSON (app : AppState) (parsed : Option JsVal) : Bool × AppState :=
  match parsed with
  | none => (false, app)
  | some data =>
    match importState app.state data with
    | .error _ => (false, app)
    | .ok ns => (true, setState app ns true)

/-! ## History-engine lemmas -/

/-- Well-formedness of the history container: the cursor sits in
`[-1, length)` and the sequence respects the cap.  It holds for the
freshly constructed container (`history = []`, `historyIndex = -1`) and is
preserved by every operation. -/
def WFHist (app : AppState) : Prop :=
  -1 ≤ app.historyIndex ∧ app.historyIndex < (app.history.length : Int) ∧
    app.history.length ≤ maxHistorySize

theorem get?_append_last {α : Type _} (l : List α) (a : α) (n : Nat)
    (h : n = l.length) : (l ++ [a]).get? n = some a := by
  subst h; exact List.get?_concat_length l a

/-- Under well-formedness the truncation step of `saveToHistory` always
produces `take (historyIndex + 1)` (a no-op slice when the cursor is
already at the end). -/
theorem trunc_eq (app : AppState) (h : WFHist app) :
    (if app.historyIndex < (app.history.length : Int) - 1 then
        app.history.take (app.historyIndex + 1).toNat
      else app.history) = app.history.take (app.historyIndex + 1).toNat := by
  obtain ⟨h1, h2, h3⟩ := h
  split
  · rfl
  · have hx : (app.historyIndex + 1).toNat = app.history.length := by omega
    rw [hx, List.take_length]

/-- Shape of a committed mutation: well-formedness is preserved, the cursor
lands on the last entry, that entry is the committed snapshot, and the
sequence has at least two entries once a commit has happened before. -/
theorem commit_props (app : AppState) (s : ProjState) (h : WFHist app) :
    WFHist (setState app s true) ∧
    (setState app s true).historyIndex = ((setState app s true).history.length : Int) - 1 ∧
    1 ≤ (setState app s true).history.length ∧
    (setState app s true).history.get? (setState app s true).historyIndex.toNat = some s ∧
    (setState app s true).state = s ∧
    (0 ≤ app.historyIndex → 2 ≤ (setState app s true).history.length) := by
  obtain ⟨h1, h2, h3⟩ := h
  have hmax : maxHistorySize = 50 := rfl
  have htl : (app.history.take (app.historyIndex + 1).toNat).length
      = (app.historyIndex + 1).toNat := by
    rw [List.length_take]; omega
  have htr := trunc_eq app ⟨h1, h2, h3⟩
  simp only [setState, if_true, saveToHistory] at *
  rw [htr]
  by_cases hc : maxHistorySize <
      (app.history.take (app.historyIndex + 1).toNat ++ [s]).length
  · rw [if_pos hc]
    rw [List.length_append, htl, List.length_cons, List.length_nil, hmax] at hc
    have hge : 0 ≤ app.historyIndex := by omega
    refine ⟨⟨?_, ?_, ?_⟩, ?_, ?_, ?_, rfl, fun _ => ?_⟩
    all_goals dsimp only
    all_goals first
      | omega
      | (rw [List.get?_drop]
         refine get?_append_last _ _ _ ?_
         rw [htl]
         try omega)
      | (simp only [List.length_drop, List.length_append, htl, List.length_cons,
          List.length_nil, hmax]
         omega)
  · rw [if_neg hc]
    rw [List.length_append, htl, List.length_cons, List.length_nil, hmax] at hc
    refine ⟨⟨?_, ?_, ?_⟩, ?_, ?_, ?_, rfl, fun _ => ?_⟩
    all_goals dsimp only
    all_goals first
      | omega
      | (refine get?_append_last _ _ _ ?_
         rw [htl]
         try omega)
      | (simp only [List.length_drop, List.length_append, htl, List.length_cons,
          List.length_nil, hmax]
         omega)

/-- Success and effect of a single `undo`. -/
theorem undo_spec (a : AppState) :
    (undo a).1 = decide (0 < a.historyIndex) ∧
    ((undo a).1 = true → (undo a).2.historyIndex = a.historyIndex - 1 ∧
      (undo a).2.history = a.history) := by
  unfold undo
  by_cases hp : 0 < a.historyIndex
  · simp [hp]
  · simp [hp]

/-- Iterated undo: perform `n` undos, conjoining the success flags. -/
def undoN (app : AppState) : Nat → Bool × AppState
  | 0 => (true, app)
  | n + 1 =>
    let r := undoN app n
    let r2 := undo r.2
    (r.1 && r2.1, r2.2)

/-- A fully successful chain of `n` undos moves the cursor back by `n`. -/
theorem undoN_index (app : AppState) (n : Nat) (h : (undoN app n).1 = true) :
    (undoN app n).2.historyIndex = app.historyIndex - n := by
  induction n with
  | zero => simp [undoN]
  | succ m ih =>
    rw [undoN] at h ⊢
    simp only at h ⊢
    obtain ⟨hm, hu⟩ := (Bool.and_eq_true _ _).mp h
    have hidx := ih hm
    obtain ⟨hi1, _⟩ := (undo_spec (undoN app m).2).2 hu
    rw [hi1, hidx]
    push_cast
    ring

/-- The length of a fully successful undo chain is bounded by the cursor
position. -/
theorem undoN_le (app : AppState) (n : Nat) (h : (undoN app n).1 = true) :
    n ≤ app.historyIndex.toNat := by
  cases n with
  | zero => exact Nat.zero_le _
  | succ m =>
    rw [undoN] at h
    simp only at h
    obtain ⟨hm, hu⟩ := (Bool.and_eq_true _ _).mp h
    have h1 := (undo_spec (undoN app m).2).1
    rw [hu] at h1
    have hp : 0 < (undoN app m).2.historyIndex := of_decide_eq_true h1.symm
    have hidx := undoN_index app m hm
    omega

/-- A sequence of committed mutations. -/
def commitList (app : AppState) (snaps : List ProjState) : AppState :=
  snaps.foldl (fun a s => setState a s true) app

/-- After a non-empty sequence of commits the container is well-formed, the
cursor sits on the last entry, that entry is the current state, and the
current state is the last committed snapshot. -/
theorem commitList_props (snaps : List ProjState) (app : AppState)
    (h : WFHist app) (hne : snaps ≠ []) :
    WFHist (commitList app snaps) ∧
    (commitList app snaps).historyIndex
      = ((commitList app snaps).history.length : Int) - 1 ∧
    (commitList app snaps).history.get? (commitList app snaps).historyIndex.toNat
      = some (commitList app snaps).state ∧
    snaps.getLast? = some (commitList app snaps).state := by
  induction snaps generalizing app with
  | nil => exact absurd rfl hne
  | cons s rest ih =>
    have hstep := commit_props app s h
    cases rest with
    | nil =>
      have : commitList app [s] = setState app s true := rfl
      rw [this]
      refine ⟨hstep.1, hstep.2.1, ?_, ?_⟩
      · rw [hstep.2.2.2.1, hstep.2.2.2.2.1]
      · simp [hstep.2.2.2.2.1]
    | cons b t =>
      have hcl : commitList app (s :: b :: t) = commitList (setState app s true) (b :: t) := rfl
      have hrest := ih (setState app s true) hstep.1 (by simp)
      rw [hcl]
      refine ⟨hrest.1, hrest.2.1, hrest.2.2.1, ?_⟩
      rw [List.getLast?_cons_cons]
      exact hrest.2.2.2

/-! ## Deletion and validation lemmas -/

theorem bool_not_true {b : Bool} (h : ¬b = true) : b = false := by
  cases b
  · rfl
  · exact absurd rfl h

/-- Length of the filter-by-index removal, starting the enumeration at
`n`. -/
theorem enumFrom_filter_length (idx : Nat) (l : List Step) : ∀ n : Nat,
    (((List.enumFrom n l).filter (fun p => decide (p.1 ≠ idx))).map Prod.snd).length
      = if n ≤ idx ∧ idx < n + l.length then l.length - 1 else l.length := by
  induction l with
  | nil => intro n; simp
  | cons a t ih =>
    intro n
    simp only [List.enumFrom, List.filter_cons, List.length_cons]
    by_cases hn : n = idx
    · rw [if_neg (by simp [hn])]
      rw [ih (n + 1)]
      rw [if_neg (by omega)]
      rw [if_pos (by omega)]
      simp
    · rw [if_pos (by simp [hn])]
      simp only [List.map_cons, List.length_cons]
      rw [ih (n + 1)]
      split_ifs <;> omega

/-- Lemma: `removeAtIdx` removes exactly one entry when the index is in range and
none otherwise. -/
theorem removeAtIdx_length (l : List Step) (idx : Nat) :
    (removeAtIdx l idx).length = if idx < l.length then l.length - 1 else l.length := by
  unfold removeAtIdx List.enum
  rw [enumFrom_filter_length idx l 0]
  split_ifs <;> omega

/-- A `findIdx?` miss means no element satisfies the test. -/
theorem findIdx?_none_forall {α : Type _} (p : α → Bool) :
    ∀ (l : List α) (st : Nat), List.findIdx? p l st = none → ∀ x ∈ l, p x = false := by
  intro l
  induction l with
  | nil => intro st _ x hx; cases hx
  | cons a t ih =>
    intro st h x hx
    rw [List.findIdx?] at h
    by_cases hp : p a
    · simp [hp] at h
    · rcases List.mem_cons.mp hx with rfl | hxt
      · exact bool_not_true hp
      · exact ih (st + 1) (by simpa [hp] using h) x hxt

/-- When some step contains a field with the given id, `removeFieldOnce`
succeeds. -/
theorem removeFieldOnce_isSome (steps : List Step) (fid : String)
    (h : ∃ st ∈ steps, ∃ f ∈ st.fields, f.id = fid) :
    (removeFieldOnce steps fid).isSome = true := by
  induction steps with
  | nil => obtain ⟨st, hst, _⟩ := h; cases hst
  | cons a t ih =>
    rw [removeFieldOnce]
    cases hidx : a.fields.findIdx? (fun f => f.id == fid) with
    | some i => rfl
    | none =>
      obtain ⟨st, hst, f, hf, hfid⟩ := h
      rcases List.mem_cons.mp hst with rfl | hstt
      · have := findIdx?_none_forall _ _ _ hidx f hf
        rw [hfid] at this
        simp at this
      · have h2 := ih ⟨st, hstt, f, hf, hfid⟩
        cases hrt : removeFieldOnce t fid with
        | some r => rfl
        | none => rw [hrt] at h2; cases h2

/-- Every error entry produced by the `validateForm` fold comes either from
the starting aggregate or from a field of the list whose validation
failed. -/
theorem validateForm_errors_mem (rx : RegexEngine) (values : List (String × JsVal)) :
    ∀ (fields : List FormField) (acc : FormResult) (fid e : String),
      (fid, e) ∈ (fields.foldl (validateFormStep rx values) acc).errors →
      (fid, e) ∈ acc.errors ∨ ∃ g ∈ fields, g.id = fid ∧
        (validateField rx (lookupVal values g.id) (fieldRules g) values).valid = false := by
  intro fields
  induction fields with
  | nil => intro acc fid e h; exact Or.inl h
  | cons f t ih =>
    intro acc fid e h
    rw [List.foldl_cons] at h
    rcases ih (validateFormStep rx values acc f) fid e h with hacc | ⟨g, hg, hgid, hgv⟩
    · unfold validateFormStep at hacc
      by_cases hv : (validateField rx (lookupVal values f.id) (fieldRules f) values).valid
      · rw [if_pos hv] at hacc
        exact Or.inl hacc
      · rw [if_neg hv] at hacc
        simp only [List.mem_append, List.mem_singleton] at hacc
        rcases hacc with h1 | h2
        · exact Or.inl h1
        · cases h2
          exact Or.inr ⟨f, List.mem_cons_self f t, rfl, bool_not_true hv⟩
    · exact Or.inr ⟨g, List.mem_cons_of_mem f hg, hgid, hgv⟩

/-- Helper: `setState` always installs exactly the given snapshot as the current
state (the history bookkeeping never touches `state`). -/
theorem setState_state (a : AppState) (s : ProjState) (bb : Bool) :
    (setState a s bb).state = s := by
  unfold setState saveToHistory
  cases bb
  · rfl
  · dsimp only
    split_ifs <;> rfl

/-- Shared helper: a successful `deleteField` clears the selection. -/
theorem deleteField_clears_selection (app : AppState) (fid : String)
    (h : ∃ st ∈ app.state.steps, ∃ f ∈ st.fields, f.id = fid) :
    (deleteField app fid).state.selectedElement = none := by
  have hs := removeFieldOnce_isSome app.state.steps fid h
  unfold deleteField
  cases hrf : removeFieldOnce app.state.steps fid with
  | none => rw [hrf] at hs; cases hs
  | some steps =>
    rw [setState_state]

/-- Shared helper: `deleteStep` never touches the selection. -/
theorem deleteStep_keeps_selection (app : AppState) (stepIndex : Nat) :
    (deleteStep app stepIndex).state.selectedElement = app.state.selectedElement := by
  unfold deleteStep
  split
  · rfl
  · rw [setState_state]

/-! ## Claim theorems -/

/-- C9: `selectElement` updates only the `selectedElement` component of the
state and never pushes a history entry or moves the cursor, so it changes
neither `canUndo` nor `canRedo` nor the result of any subsequent
successful `undo`. -/
theorem claim9_selectElement_no_history (app : AppState) (elementId : Option String) :
    (selectElement app elementId).state = { app.state with selectedElement := elementId } ∧
    (selectElement app elementId).history = app.history ∧
    (selectElement app elementId).historyIndex = app.historyIndex ∧
    canUndo (selectElement app elementId) = canUndo app ∧
    canRedo (selectElement app elementId) = canRedo app ∧
    (undo (selectElement app elementId)).1 = (undo app).1 ∧
    ((undo app).1 = true → (undo (selectElement app elementId)).2 = (undo app).2) := by
  have hsel : selectElement app elementId
      = { app with state := { app.state with selectedElement := elementId } } := rfl
  refine ⟨rfl, rfl, rfl, rfl, rfl, ?_, ?_⟩
  · rw [hsel]
    by_cases hp : 0 < app.historyIndex <;> simp [undo, hp]
  · intro hu
    rw [hsel]
    by_cases hp : 0 < app.historyIndex
    · simp [undo, hp]
    · simp [undo, hp] at hu

/-- Concrete container with two history entries and the cursor on the
newer one. -/
def witApp9 : AppState :=
  { state := initialState
    history := [initialState, { initialState with projectName := "B" }]
    historyIndex := 1 }

/-- C9 witness: on a concrete container with two history entries,
selecting an element does not change the outcome of the following undo. -/
theorem claim9_witness :
    (undo (selectElement witApp9 (some "x"))).2 = (undo witApp9).2 :=
  (claim9_selectElement_no_history witApp9 (some "x")).2.2.2.2.2.2 rfl

/-- C10: whenever the deleted field id exists somewhere in the project,
`deleteField` sets `selectedElement` to `none` unconditionally, regardless
of what was selected before. -/
theorem claim10_deleteField_clears_unconditionally (app : AppState) (fid : String)
    (h : ∃ st ∈ app.state.steps, ∃ f ∈ st.fields, f.id = fid) :
    (deleteField app fid).state.selectedElement = none :=
  deleteField_clears_selection app fid h

/-- Concrete two-step project whose second step holds the field `"f1"`
while the selection points at `"f1"`. -/
def cexApp : AppState :=
  { state := { initialState with
      steps := [{ id := "s0", name := "A", fields := [] },
                { id := "s1", name := "B", fields := [{ id := "f1" }] }],
      selectedElement := some "f1" } }

/-- A sibling project whose selection points at the header sentinel while
field `"f1"` is deleted. -/
def witApp10 : AppState :=
  { state := { initialState with
      steps := [{ id := "s0", name := "A", fields := [{ id := "f1" }] }],
      selectedElement := some "header" } }

/-- C10 witness: deleting `"f1"` while the header sentinel is selected
still clears the selection. -/
theorem claim10_witness :
    (deleteField witApp10 "f1").state.selectedElement = none :=
  claim10_deleteField_clears_unconditionally witApp10 "f1"
    ⟨{ id := "s0", name := "A", fields := [{ id := "f1" }] },
      by simp [witApp10, initialState], { id := "f1" }, by simp, rfl⟩

/-- C1 counterexample: in `cexApp` the selection names field `"f1"`,
`deleteStep 1` removes the step containing `"f1"` (no step of the result
contains it), yet the resulting `selectedElement` is still `some "f1"`,
not `none`.  This refutes the claim for the `deleteStep` case. -/
theorem claim1_counterexample :
    cexApp.state.selectedElement = some "f1" ∧
    ((deleteStep cexApp 1).state.steps.all
      (fun st => st.fields.all (fun f => f.id != "f1"))) = true ∧
    (deleteStep cexApp 1).state.selectedElement = some "f1" := by
  refine ⟨rfl, ?_, ?_⟩ <;> rfl

/-- C1 (amended): a successful `deleteField` always clears the selection
(in particular when the deleted field was the selected element), but
`deleteStep` leaves `selectedElement` unchanged, so a selection naming a
field inside the deleted step is not cleared. -/
theorem claim1_selection_cleared_on_delete :
    (∀ (app : AppState) (fid : String),
      app.state.selectedElement = some fid →
      (∃ st ∈ app.state.steps, ∃ f ∈ st.fields, f.id = fid) →
      (deleteField app fid).state.selectedElement = none) ∧
    (∀ (app : AppState) (stepIndex : Nat),
      (deleteStep app stepIndex).state.selectedElement = app.state.selectedElement) := by
  constructor
  · intro app fid _ h
    exact deleteField_clears_selection app fid h
  · exact deleteStep_keeps_selection

/-- C1 witness: deleting the selected field `"f1"` from a concrete project
clears the selection; deleting a step of the same project leaves the
selection untouched. -/
theorem claim1_witness :
    (deleteField cexApp "f1").state.selectedElement = none ∧
    (deleteStep cexApp 0).state.selectedElement = cexApp.state.selectedElement := by
  constructor
  · exact claim1_selection_cleared_on_delete.1 cexApp "f1" rfl
      ⟨{ id := "s1", name := "B", fields := [{ id := "f1" }] },
        by simp [cexApp, initialState], { id := "f1" }, by simp, rfl⟩
  · exact claim1_selection_cleared_on_delete.2 cexApp 0

/-- A sequence of `deleteStep` commands. -/
def deleteStepSeq (app : AppState) (l : List Nat) : AppState :=
  l.foldl deleteStep app

/-- One `deleteStep` keeps at least one step. -/
theorem deleteStep_len_ge (app : AppState) (i : Nat)
    (h : 1 ≤ app.state.steps.length) :
    1 ≤ (deleteStep app i).state.steps.length := by
  unfold deleteStep
  split
  · exact h
  · rename_i hgt
    rw [setState_state]
    dsimp only
    rw [removeAtIdx_length]
    split_ifs <;> omega

/-- C2: a `deleteStep` on a single-step project is a complete no-op (the
whole container, history included, is unchanged); any sequence of
`deleteStep` commands keeps at least one step; and a `deleteStep` from a
state whose `currentStep` is in range leaves `currentStep` in range. -/
theorem claim2_deleteStep_invariants (app : AppState) (l : List Nat) (i : Nat) :
    (app.state.steps.length = 1 → deleteStep app i = app) ∧
    (1 ≤ app.state.steps.length → 1 ≤ (deleteStepSeq app l).state.steps.length) ∧
    (app.state.currentStep < app.state.steps.length →
      (deleteStep app i).state.currentStep < (deleteStep app i).state.steps.length) := by
  refine ⟨?_, ?_, ?_⟩
  · intro h1
    unfold deleteStep
    rw [if_pos (by omega)]
  · intro h1
    induction l generalizing app with
    | nil => exact h1
    | cons j t ih =>
      have hstep := deleteStep_len_ge app j h1
      exact ih (deleteStep app j) hstep
  · intro hcs
    unfold deleteStep
    split
    · exact hcs
    · rename_i hgt
      rw [setState_state]
      dsimp only
      rw [removeAtIdx_length]
      have h2 : 2 ≤ app.state.steps.length := by omega
      split_ifs <;> omega

/-- Concrete projects for the C2 witness. -/
def oneStepApp : AppState := { state := initialState }

def twoStepApp : AppState :=
  { state := { initialState with
      steps := [{ id := "s0", name := "A", fields := [] },
                { id := "s1", name := "B", fields := [] }],
      currentStep := 1 } }

/-- C2 witness: deleting from the one-step initial project changes
nothing; a concrete deletion sequence on a two-step project keeps a step;
and deleting the current step keeps `currentStep` in range. -/
theorem claim2_witness :
    deleteStep oneStepApp 0 = oneStepApp ∧
    1 ≤ (deleteStepSeq twoStepApp [1, 0, 5]).state.steps.length ∧
    (deleteStep twoStepApp 1).state.currentStep
      < (deleteStep twoStepApp 1).state.steps.length := by
  refine ⟨?_, ?_, ?_⟩
  · exact (claim2_deleteStep_invariants oneStepApp [] 0).1 rfl
  · exact (claim2_deleteStep_invariants twoStepApp [1, 0, 5] 0).2.1 (by decide)
  · exact (claim2_deleteStep_invariants twoStepApp [] 1).2.2 (by decide)

/-- Inversion of a successful `Except` bind. -/
theorem except_bind_ok {α β : Type _} {e : Except Unit α} {f : α → Except Unit β}
    {bv : β} (h : (e >>= f) = .ok bv) : ∃ a, e = .ok a ∧ f a = .ok bv := by
  cases e with
  | error u => simp [Bind.bind, Except.bind] at h
  | ok a => exact ⟨a, rfl, by simpa [Bind.bind, Except.bind] using h⟩

/-- A successful `importSteps` yields at least one step. -/
theorem importSteps_pos (data : JsVal) (steps : List Step)
    (h : importSteps data = .ok steps) : 1 ≤ steps.length := by
  unfold importSteps at h
  cases hsv : jsOr (jprop data "steps") (JsVal.arr []) <;> rw [hsv] at h
  case arr xs =>
    dsimp only at h
    cases hm : mapWithIdxE importStep 0 xs <;> rw [hm] at h <;> dsimp only at h
    case error u => exact Except.noConfusion h
    case ok l =>
      have hs := Except.ok.inj h
      rw [← hs]
      by_cases h0 : l.length = 0
      · simp [h0]
      · simp only [beq_iff_eq, if_neg h0]
        omega
  all_goals exact Except.noConfusion h

/-- Every state produced by a successful import holds at least one step
(an empty or absent `steps` array is replaced by a fresh default step). -/
theorem importState_steps_pos (st : ProjState) (data : JsVal) (ns : ProjState)
    (h : importState st data = .ok ns) : 1 ≤ ns.steps.length := by
  unfold importState at h
  obtain ⟨pnv, hpn, h⟩ := except_bind_ok h
  obtain ⟨steps, hms, h⟩ := except_bind_ok h
  have hns := Except.ok.inj h
  have hsteps : ns.steps = steps := by rw [← hns]
  rw [hsteps]
  exact importSteps_pos data steps hms

/-- C8: a malformed import (parse failure or an exception while processing
the document) returns `false` and leaves the container — current state and
history — completely untouched; a successful import always yields a
project with at least one step. -/
theorem claim8_importJSON_atomic_and_nonempty (app : AppState) (input : Option JsVal) :
    ((importJSON app input).1 = false → (importJSON app input).2 = app) ∧
    ((importJSON app input).1 = true → 1 ≤ (importJSON app input).2.state.steps.length) := by
  cases input with
  | none => exact ⟨fun _ => rfl, fun h => by cases h⟩
  | some data =>
    unfold importJSON
    dsimp only
    cases his : importState app.state data with
    | error u => exact ⟨fun _ => rfl, fun h => by cases h⟩
    | ok ns =>
      constructor
      · intro h
        dsimp only at h
        exact absurd h (by simp)
      · intro _
        dsimp only
        rw [setState_state]
        exact importState_steps_pos app.state data ns his

/-- C8 witness: a parse failure on the initial project returns `false` and
leaves it untouched; importing the empty document succeeds and the result
still has a step. -/
theorem claim8_witness :
    (importJSON oneStepApp none).2 = oneStepApp ∧
    1 ≤ (importJSON oneStepApp (some (.obj []))).2.state.steps.length := by
  constructor
  · exact (claim8_importJSON_atomic_and_nonempty oneStepApp none).1 rfl
  · exact (claim8_importJSON_atomic_and_nonempty oneStepApp (some (.obj []))).2 rfl

/-- C3: the history is a bounded sliding window with cap 50 — after any
commit sequence of more than 50 snapshots onto a well-formed container the
stored sequence never exceeds 50 entries, no chain of consecutive
successful undos is longer than 50, and the newest committed state is
never the entry that was discarded: the cursor still points at it and it
equals the last committed snapshot. -/
theorem claim3_history_sliding_window (app : AppState) (snaps : List ProjState)
    (n : Nat) (hwf : WFHist app) (hlen : 50 < snaps.length) :
    (commitList app snaps).history.length ≤ 50 ∧
    ((undoN (commitList app snaps) n).1 = true → n ≤ 50) ∧
    (commitList app snaps).history.get? (commitList app snaps).historyIndex.toNat
      = some (commitList app snaps).state ∧
    snaps.getLast? = some (commitList app snaps).state := by
  have hne : snaps ≠ [] := by
    intro h
    rw [h] at hlen
    simp at hlen
  obtain ⟨hwf', hidx, hget, hlast⟩ := commitList_props snaps app hwf hne
  have hmax : maxHistorySize = 50 := rfl
  have h50 : (commitList app snaps).history.length ≤ 50 := by
    have := hwf'.2.2
    omega
  refine ⟨h50, ?_, hget, hlast⟩
  intro hn
  have hb := undoN_le (commitList app snaps) n hn
  omega

/-- C3 witness: committing 51 copies of the initial state onto the fresh
container keeps the history at 50 entries with the newest state at the
cursor. -/
theorem claim3_witness :
    (commitList { state := initialState } (List.replicate 51 initialState)).history.length ≤ 50 ∧
    ((undoN (commitList { state := initialState } (List.replicate 51 initialState)) 0).1 = true
      → 0 ≤ 50) ∧
    (commitList { state := initialState }
        (List.replicate 51 initialState)).history.get?
        (commitList { state := initialState }
          (List.replicate 51 initialState)).historyIndex.toNat
      = some (commitList { state := initialState } (List.replicate 51 initialState)).state ∧
    (List.replicate 51 initialState).getLast?
      = some (commitList { state := initialState } (List.replicate 51 initialState)).state :=
  claim3_history_sliding_window { state := initialState } (List.replicate 51 initialState) 0
    (by constructor
        · decide
        · constructor
          · decide
          · decide)
    (by simp)

/-- C4: committing `A` then `B`, undoing and redoing restores exactly the
snapshot that was current right after `commit(B)` (namely `B`); and undo at
the oldest entry and redo at the newest entry are failing no-ops that leave
the container untouched. -/
theorem claim4_undo_redo_symmetry (app : AppState) (A B : ProjState) (hwf : WFHist app) :
    (undo (setState (setState app A true) B true)).1 = true ∧
    (redo (undo (setState (setState app A true) B true)).2).1 = true ∧
    (redo (undo (setState (setState app A true) B true)).2).2.state = B ∧
    (redo (undo (setState (setState app A true) B true)).2).2.state
      = (setState (setState app A true) B true).state ∧
    (∀ a : AppState, a.historyIndex ≤ 0 → undo a = (false, a)) ∧
    (∀ a : AppState, (a.history.length : Int) - 1 ≤ a.historyIndex → redo a = (false, a)) := by
  obtain ⟨hwf1, hix1, hlen1, hget1, hst1, _⟩ := commit_props app A hwf
  have hge1 : 0 ≤ (setState app A true).historyIndex := by omega
  obtain ⟨hwf2, hix2, hlen2, hget2, hst2, htwo⟩ := commit_props (setState app A true) B hwf1
  have hlen2' : 2 ≤ (setState (setState app A true) B true).history.length := htwo hge1
  have hpos : 0 < (setState (setState app A true) B true).historyIndex := by omega
  have hu : undo (setState (setState app A true) B true)
      = (true, { setState (setState app A true) B true with
          historyIndex := (setState (setState app A true) B true).historyIndex - 1,
          state := ((setState (setState app A true) B true).history.get?
            ((setState (setState app A true) B true).historyIndex - 1).toNat).getD default }) := by
    unfold undo
    rw [if_pos hpos]
  have hrcond : ({ setState (setState app A true) B true with
      historyIndex := (setState (setState app A true) B true).historyIndex - 1,
      state := ((setState (setState app A true) B true).history.get?
        ((setState (setState app A true) B true).historyIndex - 1).toNat).getD default
      : AppState }).historyIndex
      < (({ setState (setState app A true) B true with
      historyIndex := (setState (setState app A true) B true).historyIndex - 1,
      state := ((setState (setState app A true) B true).history.get?
        ((setState (setState app A true) B true).historyIndex - 1).toNat).getD default
      : AppState }).history.length : Int) - 1 := by
    dsimp only
    omega
  refine ⟨by rw [hu], ?_, ?_, ?_, ?_, ?_⟩
  · rw [hu]
    unfold redo
    rw [if_pos hrcond]
  · rw [hu]
    unfold redo
    rw [if_pos hrcond]
    dsimp only
    have hplus : (setState (setState app A true) B true).historyIndex - 1 + 1
        = (setState (setState app A true) B true).historyIndex := by omega
    rw [hplus, hget2]
    rfl
  · rw [hst2, hu]
    unfold redo
    rw [if_pos hrcond]
    dsimp only
    have hplus : (setState (setState app A true) B true).historyIndex - 1 + 1
        = (setState (setState app A true) B true).historyIndex := by omega
    rw [hplus, hget2]
    rfl
  · intro a ha
    unfold undo
    rw [if_neg (by omega)]
  · intro a ha
    unfold redo
    rw [if_neg (by omega)]

/-- C4 witness: on the fresh container, commit two concrete snapshots,
undo and redo; the restored snapshot is the second commit, and the
concrete no-op cases hold. -/
theorem claim4_witness :
    (redo (undo (setState (setState { state := initialState }
        { initialState with projectName := "A" } true)
        { initialState with projectName := "B" } true)).2).2.state
      = { initialState with projectName := "B" } :=
  (claim4_undo_redo_symmetry { state := initialState }
    { initialState with projectName := "A" } { initialState with projectName := "B" }
    (by constructor
        · decide
        · constructor
          · decide
          · decide)).2.2.1

/-- Shared helper: a field whose enabled conditional logic evaluates to
false is reported valid by `validateField` without any other check. -/
theorem hidden_validateField (rx : RegexEngine) (value : JsVal) (rules : Rules)
    (values : List (String × JsVal)) (c : Condition)
    (hcl : rules.conditionalLogic = some c) (hen : c.enabled = true)
    (hev : evaluateCondition (some c) values = false) :
    validateField rx value rules values = { valid := true, error := none } := by
  unfold validateField
  rw [hcl]
  rw [if_pos (by simp [hen, hev])]

/-- A field hidden by its conditional logic under the given value
mapping. -/
def hiddenField (values : List (String × JsVal)) (g : FormField) : Prop :=
  ∃ c, g.conditionalLogic = some c ∧ c.enabled = true ∧
    evaluateCondition (some c) values = false

/-- C5: a field whose conditional logic is enabled and evaluates to false
is always reported valid with no error by `validateField`, whatever its
other rules; consequently `validateForm` records no error entry for such a
field even when its own rules would fail. -/
theorem claim5_hidden_field_skips_validation :
    (∀ (rx : RegexEngine) (value : JsVal) (rules : Rules)
        (values : List (String × JsVal)) (c : Condition),
      rules.conditionalLogic = some c → c.enabled = true →
      evaluateCondition (some c) values = false →
      validateField rx value rules values = { valid := true, error := none }) ∧
    (∀ (rx : RegexEngine) (values : List (String × JsVal))
        (fields : List FormField) (fid e : String),
      (∀ g ∈ fields, g.id = fid → hiddenField values g) →
      (fid, e) ∉ (validateForm rx values fields).errors) := by
  constructor
  · exact hidden_validateField
  · intro rx values fields fid e hall hmem
    unfold validateForm at hmem
    rcases validateForm_errors_mem rx values fields _ fid e hmem with h0 | ⟨g, hg, hgid, hgv⟩
    · cases h0
    · obtain ⟨c, hcl, hen, hev⟩ := hall g hg hgid
      have hval := hidden_validateField rx (lookupVal values g.id) (fieldRules g) values c
        (by simp [fieldRules, hcl]) hen hev
      rw [hval] at hgv
      cases hgv

/-- The condition `t1 equals "yes"` used by the C5 witness field. -/
def hiddenWitCond : Condition := ⟨true, "t1", "equals", .s "yes"⟩

/-- Concrete hidden field: required and with a failing length rule, but its
enabled condition is false under `t1 = "no"`. -/
def hiddenWitField : FormField :=
  { id := "h1", type := "text", required := true,
    validation := { minLength := some 5 },
    conditionalLogic := some hiddenWitCond }

/-- C5 witness: the hidden field validates as valid with no error even
though it is required and empty, and `validateForm` records no error for
it. -/
theorem claim5_witness :
    validateField (fun _ _ => none) .undefined (fieldRules hiddenWitField)
      [("t1", .s "no")] = { valid := true, error := none } ∧
    ("h1", Messages.required) ∉
      (validateForm (fun _ _ => none) [("t1", .s "no")] [hiddenWitField]).errors := by
  constructor
  · exact claim5_hidden_field_skips_validation.1 (fun _ _ => none) .undefined
      (fieldRules hiddenWitField) [("t1", .s "no")] hiddenWitCond
      rfl rfl (by decide)
  · exact claim5_hidden_field_skips_validation.2 (fun _ _ => none) [("t1", .s "no")]
      [hiddenWitField] "h1" Messages.required
      (fun g hg _ => by
        rcases List.mem_cons.mp hg with rfl | h0
        · exact ⟨hiddenWitCond, rfl, rfl, by decide⟩
        · cases h0)

/-- C6: the condition evaluator is fail-open — it returns true when the
descriptor is absent, disabled, lacking a trigger-field reference, or
using an unrecognized operator — and for `equals` it returns true exactly
when the looked-up trigger value is strictly equal to the comparison
value. -/
theorem claim6_evaluateCondition_failopen_equals (values : List (String × JsVal)) :
    (evaluateCondition none values = true) ∧
    (∀ c : Condition, c.enabled = false → evaluateCondition (some c) values = true) ∧
    (∀ c : Condition, c.field = "" → evaluateCondition (some c) values = true) ∧
    (∀ c : Condition, c.operator ∉ knownOperators →
      evaluateCondition (some c) values = true) ∧
    (∀ (f : String) (v : JsVal), f ≠ "" →
      evaluateCondition (some ⟨true, f, "equals", v⟩) values
        = strictEq (lookupVal values f) v) := by
  refine ⟨rfl, ?_, ?_, ?_, ?_⟩
  · intro c hc
    simp [evaluateCondition, hc]
  · intro c hc
    by_cases he : c.enabled <;> simp [evaluateCondition, hc, he]
  · intro c hop
    simp only [knownOperators, List.mem_cons, List.not_mem_nil, or_false, not_or] at hop
    obtain ⟨h1, h2, h3, h4, h5, h6, h7, h8, h9, h10⟩ := hop
    simp [evaluateCondition, h1, h2, h3, h4, h5, h6, h7, h8, h9, h10]
  · intro f v hf
    simp [evaluateCondition, hf]

/-- C6 witness: the spec's concrete scenarios — `equals` against matching
and non-matching mappings, an unknown operator, and a disabled
condition. -/
theorem claim6_witness :
    evaluateCondition (some ⟨true, "f1", "equals", .s "x"⟩) [("f1", .s "x")] = true ∧
    evaluateCondition (some ⟨true, "f1", "equals", .s "x"⟩) [("f1", .s "y")] = false ∧
    evaluateCondition (some ⟨true, "f1", "frobnicate", .s "x"⟩) [("f1", .s "y")] = true ∧
    evaluateCondition (some ⟨false, "f1", "equals", .s "x"⟩) [] = true := by
  refine ⟨?_, ?_, ?_, ?_⟩
  · have h := (claim6_evaluateCondition_failopen_equals [("f1", .s "x")]).2.2.2.2
      "f1" (.s "x") (by decide)
    rw [h]
    rfl
  · have h := (claim6_evaluateCondition_failopen_equals [("f1", .s "y")]).2.2.2.2
      "f1" (.s "x") (by decide)
    rw [h]
    rfl
  · exact (claim6_evaluateCondition_failopen_equals [("f1", .s "y")]).2.2.2.1
      ⟨true, "f1", "frobnicate", .s "x"⟩ (by decide)
  · exact (claim6_evaluateCondition_failopen_equals []).2.1
      ⟨false, "f1", "equals", .s "x"⟩ rfl

/-- Stripping non-digits leaves only digits, so the mobile pattern on the
stripped value is exactly a length-10 test. -/
theorem mobilePattern_strip (v : String) :
    mobilePattern (stripNonDigits v) = ((stripNonDigits v).length == 10) := by
  unfold mobilePattern
  have hall : (stripNonDigits v).toList.all Char.isDigit = true := by
    have hh : (stripNonDigits v).toList = v.toList.filter Char.isDigit := rfl
    rw [hh, List.all_eq_true]
    intro x hx
    exact (List.mem_filter.mp hx).2
  rw [hall, Bool.and_true]

/-- The spec's mobile scenario field: `{type: "mobile", required: true}`
with no further validation record. -/
def mobileScenarioField : FormField := { id := "m1", type := "mobile", required := true }

/-- Shared helper: on the mobile scenario rules, a non-empty string value
validates to valid exactly when its non-digit-stripped form has length 10,
and otherwise fails with the built-in mobile message. -/
theorem validateField_mobile_scenario (rx : RegexEngine)
    (values : List (String × JsVal)) (v : String) (hv : trimJS v ≠ "") :
    validateField rx (.s v) (fieldRules mobileScenarioField) values =
      if (stripNonDigits v).length = 10 then { valid := true, error := none }
      else { valid := false, error := some Messages.mobile } := by
  have hemp : isEmpty (.s v) = false := beq_eq_false_iff_ne.mpr hv
  unfold validateField
  rw [if_neg (by simp [fieldRules, mobileScenarioField])]
  rw [if_neg (by simp [fieldRules, mobileScenarioField, hemp])]
  rw [if_neg (by simp [hemp])]
  unfold formatFailure
  simp only [checkEmail, checkMobile, checkUrl, checkMinLength, checkMaxLength,
    checkMin, checkMax, checkCustom, checkGst, checkPan, checkPincode,
    checkAlphanumeric, checkAlpha, checkNumeric, fieldRules, mobileScenarioField,
    jsString, mobilePattern_strip]
  by_cases hlen : (stripNonDigits v).length = 10
  · rw [if_pos hlen]
    simp [hlen, Option.orElse]
  · rw [if_neg hlen]
    simp [hlen, Option.orElse]

/-- C7: on a mobile-typed field (the spec's `{type: "mobile", required:
true}` scenario) a non-empty value is accepted exactly when stripping all
non-digit characters leaves exactly 10 digits; concretely
`"98-765-43210"` is reported valid by `validateForm` and `"12345"` is
reported invalid with the built-in mobile-format message. -/
theorem claim7_mobile_strip_ten_digits (rx : RegexEngine)
    (values : List (String × JsVal)) (v : String) (hv : trimJS v ≠ "") :
    (validateField rx (.s v) (fieldRules mobileScenarioField) values =
      if (stripNonDigits v).length = 10 then { valid := true, error := none }
      else { valid := false, error := some Messages.mobile }) ∧
    validateForm rx [("m1", .s "98-765-43210")] [mobileScenarioField]
      = { valid := true, errors := [] } ∧
    validateForm rx [("m1", .s "12345")] [mobileScenarioField]
      = { valid := false, errors := [("m1", Messages.mobile)] } := by
  refine ⟨validateField_mobile_scenario rx values v hv, ?_, ?_⟩
  · unfold validateForm
    rw [List.foldl_cons, List.foldl_nil]
    unfold validateFormStep
    rw [show lookupVal [("m1", JsVal.s "98-765-43210")] mobileScenarioField.id = .s "98-765-43210" from rfl]
    rw [validateField_mobile_scenario rx [("m1", .s "98-765-43210")] "98-765-43210"
      (by decide)]
    rw [if_pos (by decide)]
  · unfold validateForm
    rw [List.foldl_cons, List.foldl_nil]
    unfold validateFormStep
    rw [show lookupVal [("m1", JsVal.s "12345")] mobileScenarioField.id = .s "12345" from rfl]
    rw [validateField_mobile_scenario rx [("m1", .s "12345")] "12345" (by decide)]
    rw [if_neg (by decide)]
    rfl

/-- C7 witness: the theorem applied at the concrete dashed value. -/
theorem claim7_witness :
    validateField (fun _ _ => none) (.s "98-765-43210")
        (fieldRules mobileScenarioField) []
      = if (stripNonDigits "98-765-43210").length = 10
        then { valid := true, error := none }
        else { valid := false, error := some Messages.mobile } :=
  (claim7_mobile_strip_ten_digits (fun _ _ => none) [] "98-765-43210" (by decide)).1
